import Mathlib

/- Verification development for the content sampler of the real-or-ai game
repository. The definitions below are a shallow embedding of the code in
src/data/images.ts, src/hooks/useImagePair.ts, src/hooks/useGameState.ts and
the mobile sequence planner inside the GameBoard component. Randomness
(Math.random) is passed in explicitly: every call site that samples an index
receives a natural number r and indexes with r modulo the pool size, and the
Fisher-Yates shuffle receives one sampled number per loop iteration. -/

namespace RealOrAi

/-- Image descriptor of src/types/index.ts. The optional lqipSrc field is
presentation data, carried as an Option. -/
structure Image where
  id : String
  src : String
  lqipSrc : Option String := none
  category : String
  isAI : Bool
deriving Repr, DecidableEq

instance : Inhabited Image := ⟨⟨"", "", none, "", false⟩⟩

/-- ImagePair of src/types/index.ts. -/
structure ImagePair where
  realImage : Image
  aiImage : Image
  category : String
deriving Repr, DecidableEq

/-- The module-level categoryImageCache of src/data/images.ts: an association
list from category name to the pair (real partition, ai partition), standing
for the object whose keys are the categories found on disk. -/
abbrev Catalog := List (String × List Image × List Image)

/-- The id construction of src/data/images.ts line 54:
id = type ++ "-" ++ category ++ "-" ++ index. -/
def mkImageId (type category index : String) : String :=
  type ++ "-" ++ category ++ "-" ++ index

/-- availableCategories of src/data/images.ts lines 70-79: the categories of
the cache whose real and ai partitions are both non-empty. -/
def availableCategories (catalog : Catalog) : List String :=
  (catalog.map Prod.fst).filter fun c =>
    match catalog.lookup c with
    | some (r, a) => !r.isEmpty && !a.isEmpty
    | none => false

/-- getCategoryImages of src/data/images.ts lines 82-89: return the cached
partitions when the category is available and cached, else two empty lists. -/
def getCategoryImages (catalog : Catalog) (category : String) :
    List Image × List Image :=
  match catalog.lookup category with
  | some e => if (availableCategories catalog).contains category then e else ([], [])
  | none => ([], [])

/-- RECENT_HISTORY_LENGTH of src/hooks/useImagePair.ts line 5. -/
def RECENT_HISTORY_LENGTH : Nat := 50

/-- The recentlyUsedIds update of src/hooks/useImagePair.ts lines 95-97:
prepend the two ids just shown, then slice to the history length. -/
def recordPair (realId aiId : String) (prev : List String) : List String :=
  (realId :: aiId :: prev).take RECENT_HISTORY_LENGTH

/-- peopleWeight of src/hooks/useImagePair.ts line 33. -/
def peopleWeight : Nat := 3

/-- The weighted category list of src/hooks/useImagePair.ts lines 37-43:
every category once, the people category peopleWeight times. -/
def weightedList (cats : List String) : List String :=
  cats.flatMap fun c => List.replicate (if c == "people" then peopleWeight else 1) c

/-- The category choice of src/hooks/useImagePair.ts lines 32-47, r being the
sampled random index. -/
def chooseCategory (cats : List String) (r : Nat) : String :=
  if cats.contains "people" && cats.length > 1 then
    (weightedList cats).getD (r % (weightedList cats).length) ""
  else
    cats.getD (r % cats.length) ""

/-- maxAttempts of src/hooks/useImagePair.ts line 64. -/
def maxAttempts : Nat := 20

/-- One uniform draw from a pool: pool[Math.floor(Math.random() * len)],
modelled by reducing the sampled number r modulo the pool length. -/
def drawAt (pool : List Image) (r : Nat) : Image :=
  pool.getD (r % pool.length) default

/-- The guard of the real-image do-while of src/hooks/useImagePair.ts
lines 68-71. -/
def realLoopCond (history : List String) (imgId : String) (attempts : Nat) : Bool :=
  history.contains imgId && attempts < maxAttempts

/-- The guard of the ai-image do-while of src/hooks/useImagePair.ts lines
79-83, with the operator precedence of the source: conjunction binds tighter
than disjunction, so the attempts bound applies only to the equals-real
conjunct, not to the history-membership check. -/
def aiLoopCond (history : List String) (realId : String) (aiLen : Nat)
    (aiId : String) (attempts : Nat) : Bool :=
  history.contains aiId || (aiId == realId && aiLen > 1) && attempts < maxAttempts

/-- The real-image do-while of src/hooks/useImagePair.ts lines 65-71, unrolled
on the round counter k (attempts = k + 1 after the draw of round k). The fuel
makes the recursion structural; none means the fuel ran out with the loop
still running. -/
def realDrawAux (history : List String) (real : List Image) (rand : Nat → Nat) :
    Nat → Nat → Option Image
  | 0, _ => none
  | fuel + 1, k =>
    let img := drawAt real (rand k)
    if realLoopCond history img.id (k + 1) then
      realDrawAux history real rand fuel (k + 1)
    else
      some img

/-- The ai-image do-while of src/hooks/useImagePair.ts lines 76-83; none means
the fuel ran out with the loop still running. -/
def aiDrawAux (history : List String) (realId : String) (ai : List Image)
    (rand : Nat → Nat) : Nat → Nat → Option Image
  | 0, _ => none
  | fuel + 1, k =>
    let img := drawAt ai (rand k)
    if aiLoopCond history realId ai.length img.id (k + 1) then
      aiDrawAux history realId ai rand fuel (k + 1)
    else
      some img

/-- The outcome of one generateRandomPair call: the two error branches of
src/hooks/useImagePair.ts lines 22-29 and 54-59, outOfFuel when the ai loop
has not exited within the given fuel, or the produced pair together with the
updated recentlyUsedIds. -/
inductive PairResult where
  | errNoCategories
  | errDataMismatch
  | outOfFuel
  | ok (pair : ImagePair) (newHistory : List String)
deriving Repr, DecidableEq

/-- generateRandomPair of src/hooks/useImagePair.ts lines 17-104: check for
available categories, choose a weighted category, fetch its partitions, draw
a real and an ai image with the two retry loops, record both ids. The real
loop runs with fuel maxAttempts, which its guard never exhausts; the ai loop
receives explicit fuel because its guard can hold forever. -/
def generateRandomPair (catalog : Catalog) (history : List String) (rcat : Nat)
    (rreal rai : Nat → Nat) (fuelA : Nat) : PairResult :=
  let cats := availableCategories catalog
  if cats.length == 0 then .errNoCategories
  else
    let chosen := chooseCategory cats rcat
    let pools := getCategoryImages catalog chosen
    if pools.1.length == 0 || pools.2.length == 0 then .errDataMismatch
    else
      match realDrawAux history pools.1 rreal maxAttempts 0 with
      | none => .outOfFuel
      | some rImg =>
        match aiDrawAux history rImg.id pools.2 rai fuelA 0 with
        | none => .outOfFuel
        | some aImg =>
          .ok ⟨rImg, aImg, chosen⟩ (recordPair rImg.id aImg.id history)

/-- One JS destructuring swap a[i], a[j] = a[j], a[i] on a list; both values
are read from the original list. -/
def swapL {α : Type} [Inhabited α] (l : List α) (i j : Nat) : List α :=
  (l.set i (l.getD j default)).set j (l.getD i default)

/-- The Fisher-Yates loop of shuffleArray (src/data/images.ts lines 93-100 and
the identical copy in GameBoard), iterating i from len - 1 down to 1 with
j = Math.floor(Math.random() * (i + 1)) sampled once per iteration. -/
def fyAux {α : Type} [Inhabited α] (rand : Nat → Nat) : Nat → List α → List α
  | 0, l => l
  | i + 1, l => fyAux rand i (swapL l (i + 1) (rand (i + 1) % (i + 2)))

/-- shuffleArray of src/data/images.ts lines 93-100. -/
def shuffleArray {α : Type} [Inhabited α] (rand : Nat → Nat) (l : List α) : List α :=
  fyAux rand (l.length - 1) l

/-- The seen-id filter of getAllUniqueImages (src/data/images.ts lines
106-128): keep the first occurrence of every id. -/
def dedupById : List Image → List String → List Image
  | [], _ => []
  | img :: rest, seen =>
    if seen.contains img.id then dedupById rest seen
    else img :: dedupById rest (img.id :: seen)

/-- getAllUniqueImages of src/data/images.ts lines 106-131: the real then ai
images of every category of the cache, in cache order, deduplicated by id and
shuffled. -/
def getAllUniqueImages (catalog : Catalog) (rand : Nat → Nat) : List Image :=
  shuffleArray rand (dedupById (catalog.flatMap fun e => e.2.1 ++ e.2.2) [])

/-- UNIQUE_DISPLAY_COUNT_TARGET of the GameBoard component, line 14. -/
def UNIQUE_DISPLAY_COUNT_TARGET : Nat := 50

/-- The mobile planner state of the GameBoard component: masterMobileList,
masterMobileIndex, uniqueImagesShownCount, currentMobileImage, mobileError. -/
structure MobileState where
  masterMobileList : List Image
  masterMobileIndex : Nat
  uniqueImagesShownCount : Nat
  currentMobileImage : Option Image
  mobileError : Option String
deriving Repr, DecidableEq

/-- The initializeMobileGame callback of GameBoard lines 90-109: fetch all
unique images; on an empty pool set the error and clear the list and current
image, otherwise install the shuffled list with index 0 and count 0. -/
def initMobileGame (catalog : Catalog) (rand : Nat → Nat) (s : MobileState) :
    MobileState :=
  let allImages := getAllUniqueImages catalog rand
  if allImages.length == 0 then
    { s with
      mobileError := some "No images available for the game."
      masterMobileList := []
      currentMobileImage := none }
  else
    { masterMobileList := allImages
      currentMobileImage := some (allImages.getD 0 default)
      masterMobileIndex := 0
      uniqueImagesShownCount := 0
      mobileError := none }

/-- advanceMobileImage of GameBoard lines 165-221: increment the index and the
unique counter; when the counter reaches the target or the index reaches the
end of the list, reshuffle (when the list is non-empty), restart at index 0,
and reset the counter only when the target condition fired; with an empty
list only the current image is cleared. -/
def advanceMobileImage (rand : Nat → Nat) (s : MobileState) : MobileState :=
  let nextIndex := s.masterMobileIndex + 1
  let currentList := s.masterMobileList
  let newUniqueCount := s.uniqueImagesShownCount + 1
  if newUniqueCount ≥ UNIQUE_DISPLAY_COUNT_TARGET ∨ nextIndex ≥ currentList.length then
    if currentList.length > 0 then
      let shuffled := shuffleArray rand currentList
      let finalUnique :=
        if newUniqueCount ≥ UNIQUE_DISPLAY_COUNT_TARGET then 0 else newUniqueCount
      { s with
        masterMobileList := shuffled
        masterMobileIndex := 0
        uniqueImagesShownCount := finalUnique
        currentMobileImage := some (shuffled.getD 0 default) }
    else
      { s with currentMobileImage := none }
  else
    { s with
      masterMobileIndex := nextIndex
      uniqueImagesShownCount := newUniqueCount
      currentMobileImage := some (currentList.getD nextIndex default) }

/-- t successive advanceMobileImage calls; rands t is the shuffle randomness
consumed by call number t + 1. -/
def advanceIter (rands : Nat → Nat → Nat) : Nat → MobileState → MobileState
  | 0, s => s
  | t + 1, s => advanceMobileImage (rands t) (advanceIter rands t s)

/-- GameState of src/hooks/useGameState.ts. -/
structure GameState where
  score : Nat
  totalAttempts : Nat
  selectedImageId : Option String
  isCorrect : Option Bool
  showFeedback : Bool
  correctStreak : Nat
  selectedCategory : String
deriving Repr, DecidableEq

/-- The initialState of src/hooks/useGameState.ts lines 4-12. -/
def initialGameState : GameState :=
  { score := 0
    totalAttempts := 0
    selectedImageId := none
    isCorrect := none
    showFeedback := false
    correctStreak := 0
    selectedCategory := "people" }

/-- GameAction of src/types/index.ts with the SET_CATEGORY action of
src/hooks/useGameState.ts. -/
inductive GameAction where
  | selectImage (payload : String)
  | showFeedback (payload : Bool)
  | nextPair
  | resetGame
  | setCategory (payload : String)
deriving Repr, DecidableEq

/-- gameReducer of src/hooks/useGameState.ts lines 14-53. -/
def gameReducer (state : GameState) : GameAction → GameState
  | .selectImage payload => { state with selectedImageId := some payload }
  | .showFeedback isCorrect =>
    { state with
      showFeedback := true
      isCorrect := some isCorrect
      score := if isCorrect then state.score + 1 else state.score
      totalAttempts := state.totalAttempts + 1
      correctStreak := if isCorrect then state.correctStreak + 1 else 0 }
  | .nextPair =>
    { state with selectedImageId := none, showFeedback := false, isCorrect := none }
  | .resetGame => { initialGameState with correctStreak := 0 }
  | .setCategory payload => { state with selectedCategory := payload }

/-- The desktop per-session state touched by handleResetGame: the reducer
state of useGameState, the recentlyUsedIds ref of useImagePair, the current
pair and the error of useImagePair. -/
structure AppState where
  game : GameState
  recentlyUsedIds : List String
  currentPair : Option ImagePair
  pairError : Option String
deriving Repr, DecidableEq

/-- The state writes of one generateRandomPair call (src/hooks/useImagePair.ts
lines 17-104) on the desktop state; on outOfFuel the source loop is still
spinning, so no write has happened yet and the state is returned unchanged. -/
def runGenerateRandomPair (catalog : Catalog) (rcat : Nat) (rreal rai : Nat → Nat)
    (fuelA : Nat) (s : AppState) : AppState :=
  match generateRandomPair catalog s.recentlyUsedIds rcat rreal rai fuelA with
  | .errNoCategories =>
    { s with
      pairError := some "No image categories available. Add images to public/images/"
      currentPair := none }
  | .errDataMismatch => { s with pairError := some "Error fetching image data." }
  | .outOfFuel => s
  | .ok pair h =>
    { s with
      currentPair := some pair
      recentlyUsedIds := h
      pairError := none }

/-- handleResetGame of GameBoard lines 130-141, desktop branch: dispatch
RESET_GAME through the reducer, then call generateRandomPair. -/
def handleResetGame (catalog : Catalog) (rcat : Nat) (rreal rai : Nat → Nat)
    (fuelA : Nat) (s : AppState) : AppState :=
  let s1 := { s with game := gameReducer s.game .resetGame }
  runGenerateRandomPair catalog rcat rreal rai fuelA s1

/-- The error taxonomy of section 7 of the spec. -/
inductive NextPairError where
  | dataUnavailable
  | structuralInconsistency
deriving Repr, DecidableEq

/-- Modelled from the spec: the bounded-retry rejection draw of section 4.2
steps 4-5 — up to maxAttempts draws, accept the first draw not rejected, and
when all attempts are exhausted accept the last draw regardless. The first
argument of the recursion is the number of attempts remaining. -/
def boundedRetry (pool : List Image) (rand : Nat → Nat) (reject : Image → Bool) :
    Nat → Nat → Image
  | 0, k => drawAt pool (rand k)
  | n + 1, k =>
    let img := drawAt pool (rand k)
    if reject img && n > 0 then boundedRetry pool rand reject n (k + 1)
    else img

/-- Modelled from the spec: the draw steps 3-7 of section 4.2 for an already
chosen category — fetch the partitions, fail with StructuralInconsistency when
one is empty, draw the real image avoiding SessionHistory, draw the ai image
avoiding SessionHistory and the real id (the latter only when the ai pool has
more than one member), record both ids. -/
def nextPairDrawSpec (catalog : Catalog) (chosen : String) (history : List String)
    (rreal rai : Nat → Nat) : Except NextPairError (ImagePair × List String) :=
  let pools := getCategoryImages catalog chosen
  if pools.1.isEmpty || pools.2.isEmpty then .error .structuralInconsistency
  else
    let rImg := boundedRetry pools.1 rreal
      (fun img => history.contains img.id) maxAttempts 0
    let aImg := boundedRetry pools.2 rai
      (fun img => history.contains img.id || (img.id == rImg.id && pools.2.length > 1))
      maxAttempts 0
    .ok (⟨rImg, aImg, chosen⟩, recordPair rImg.id aImg.id history)

/-- Modelled from the spec: the category-parameterized public contract
nextPair(category: FilterCategory) of section 4.2 is absent from the sources —
generateRandomPair takes no category argument; only the FilterCategory type,
the selectedCategory game state and the CategoryFilter component exist. Step 1
follows the words of the spec over the availability data of the code: for the
virtual filter "all" use the available categories with the weighted draw of
step 2, for a concrete category verify availability and fail with
DataUnavailable otherwise. -/
def nextPairSpec (catalog : Catalog) (filter : String) (history : List String)
    (rcat : Nat) (rreal rai : Nat → Nat) :
    Except NextPairError (ImagePair × List String) :=
  let cats := availableCategories catalog
  if filter == "all" then
    if cats.isEmpty then .error .dataUnavailable
    else nextPairDrawSpec catalog (chooseCategory cats rcat) history rreal rai
  else
    if cats.contains filter then nextPairDrawSpec catalog filter history rreal rai
    else .error .dataUnavailable

/-- The id-construction invariant of src/data/images.ts lines 13-66: every
image of a real partition carries an id built with type "real" and its
category, every image of an ai partition an id built with type "ai". -/
def CatalogWF (catalog : Catalog) : Prop :=
  ∀ e ∈ catalog,
    (∀ img ∈ e.2.1, ∃ idx, img.id = mkImageId "real" e.1 idx) ∧
    (∀ img ∈ e.2.2, ∃ idx, img.id = mkImageId "ai" e.1 idx)

/-- Test fixture: the image built from /public/images/people/real/1.jpg. -/
def imgRealPeople1 : Image :=
  ⟨"real-people-1", "/images/people/real/1.jpg", none, "people", false⟩

/-- Test fixture: the image built from /public/images/people/real/2.jpg. -/
def imgRealPeople2 : Image :=
  ⟨"real-people-2", "/images/people/real/2.jpg", none, "people", false⟩

/-- Test fixture: the image built from /public/images/people/ai/1.jpg. -/
def imgAiPeople1 : Image :=
  ⟨"ai-people-1", "/images/people/ai/1.jpg", none, "people", true⟩

/-- Test fixture: the image built from /public/images/people/ai/2.jpg. -/
def imgAiPeople2 : Image :=
  ⟨"ai-people-2", "/images/people/ai/2.jpg", none, "people", true⟩

/-- Test fixture: the image built from /public/images/city/real/1.jpg. -/
def imgRealCity1 : Image :=
  ⟨"real-city-1", "/images/city/real/1.jpg", none, "city", false⟩

/-- Test fixture: a catalog with one available category. -/
def catPeople : Catalog := [("people", [imgRealPeople1, imgRealPeople2], [imgAiPeople1])]

/-- Test fixture: a catalog whose combined pool has exactly two images. -/
def catOnePair : Catalog := [("people", [imgRealPeople1], [imgAiPeople1])]

/-- Test fixture: a catalog whose ai partition has two members. -/
def catTwoAi : Catalog :=
  [("people", [imgRealPeople1, imgRealPeople2], [imgAiPeople1, imgAiPeople2])]

/-- Test fixture: a catalog whose only category has real images but zero ai
images, hence is not available. -/
def catCity : Catalog := [("city", [imgRealCity1], [])]

/-- Test fixture: the mobile state before any initialization. -/
def emptyMobileState : MobileState := ⟨[], 0, 0, none, none⟩

/-- Test fixture: the mobile state right after initialization over catOnePair,
the shuffle randomness leaving the two-element pool in discovery order. -/
def mobStart : MobileState := initMobileGame catOnePair (fun _ => 1) emptyMobileState

/-- Test fixture: the mobile state right after initialization over catPeople,
a three-image pool. -/
def mobStart3 : MobileState := initMobileGame catPeople (fun _ => 1) emptyMobileState

/-- Test fixture: a desktop state mid-session, with one id in the
recentlyUsedIds window and a non-zero score. -/
def appWithHistory : AppState :=
  ⟨{ initialGameState with score := 5, totalAttempts := 7 }, ["xhist"], none, none⟩

/- Helper lemmas shared by the claim theorems. -/

theorem getD_mod_mem {α : Type} (l : List α) (r : Nat) (d : α) (h : l ≠ []) :
    l.getD (r % l.length) d ∈ l := by
  have hlen : 0 < l.length := List.length_pos.mpr h
  have hlt : r % l.length < l.length := Nat.mod_lt _ hlen
  rw [List.getD_eq_getElem?_getD, List.getElem?_eq_getElem hlt]
  exact List.getElem_mem hlt

theorem drawAt_mem (pool : List Image) (r : Nat) (h : pool ≠ []) :
    drawAt pool r ∈ pool := getD_mod_mem pool r default h

theorem getD_of_lt {α : Type} (l : List α) (i : Nat) (d : α) (h : i < l.length) :
    l.getD i d = l[i] := by
  rw [List.getD_eq_getElem?_getD, List.getElem?_eq_getElem h]
  rfl

theorem cons_get_set_perm {α : Type} (t : List α) :
    ∀ (m : Nat) (a : α) (h : m < t.length), (t[m] :: t.set m a).Perm (a :: t) := by
  induction t with
  | nil => intro m a h; simp at h
  | cons b t₂ ih =>
    intro m a h
    cases m with
    | zero => simpa using List.Perm.swap a b t₂
    | succ m₂ =>
      have hm : m₂ < t₂.length := by simpa using h
      simp only [List.getElem_cons_succ, List.set_cons_succ]
      exact ((List.Perm.swap b (t₂[m₂]) _).trans ((ih m₂ a hm).cons b)).trans
        (List.Perm.swap a b t₂)

theorem set_set_swap_perm {α : Type} :
    ∀ (l : List α) (i j : Nat) (hi : i < l.length) (hj : j < l.length),
      ((l.set i l[j]).set j l[i]).Perm l := by
  intro l
  induction l with
  | nil => intro i j hi _; simp at hi
  | cons x t ih =>
    intro i j hi hj
    cases i with
    | zero =>
      cases j with
      | zero => simp
      | succ m =>
        have hm : m < t.length := by simpa using hj
        simpa using cons_get_set_perm t m x hm
    | succ n =>
      cases j with
      | zero =>
        have hn : n < t.length := by simpa using hi
        simpa using cons_get_set_perm t n x hn
      | succ m =>
        have hn : n < t.length := by simpa using hi
        have hm : m < t.length := by simpa using hj
        simpa using (ih n m hn hm).cons x

theorem swapL_perm {α : Type} [Inhabited α] (l : List α) (i j : Nat)
    (hi : i < l.length) (hj : j < l.length) : (swapL l i j).Perm l := by
  rw [swapL, getD_of_lt l i default hi, getD_of_lt l j default hj]
  exact set_set_swap_perm l i j hi hj

theorem fyAux_perm {α : Type} [Inhabited α] (rand : Nat → Nat) :
    ∀ (i : Nat) (l : List α), i < l.length → (fyAux rand i l).Perm l := by
  intro i
  induction i with
  | zero => intro l _; exact List.Perm.refl l
  | succ n ih =>
    intro l h
    have hj : rand (n + 1) % (n + 2) < l.length := by
      have h2 : rand (n + 1) % (n + 2) < n + 2 := Nat.mod_lt _ (by omega)
      omega
    have hswap := swapL_perm l (n + 1) (rand (n + 1) % (n + 2)) h hj
    have hn : n < (swapL l (n + 1) (rand (n + 1) % (n + 2))).length := by
      have := hswap.length_eq
      omega
    simp only [fyAux]
    exact (ih _ hn).trans hswap

theorem shuffleArray_perm {α : Type} [Inhabited α] (rand : Nat → Nat) (l : List α) :
    (shuffleArray rand l).Perm l := by
  cases l with
  | nil => simp [shuffleArray, fyAux]
  | cons x t =>
    have h : (x :: t).length - 1 < (x :: t).length := by simp
    exact fyAux_perm rand _ _ h

theorem lookup_mem {α β : Type} [BEq α] [LawfulBEq α] :
    ∀ (l : List (α × β)) (c : α) (e : β), l.lookup c = some e → (c, e) ∈ l := by
  intro l
  induction l with
  | nil => intro c e h; simp [List.lookup] at h
  | cons p t ih =>
    intro c e h
    obtain ⟨k, v⟩ := p
    rw [List.lookup] at h
    cases hck : (c == k) with
    | true =>
      rw [hck] at h
      have hv : v = e := by simpa using h
      have hc : c = k := by simpa using hck
      subst hv; subst hc
      exact List.mem_cons_self _ _
    | false =>
      rw [hck] at h
      exact List.mem_cons_of_mem _ (ih c e h)

theorem mem_availableCategories {catalog : Catalog} {c : String}
    (h : c ∈ availableCategories catalog) :
    ∃ r a, catalog.lookup c = some (r, a) ∧ r ≠ [] ∧ a ≠ [] := by
  have h2 := (List.mem_filter.mp h).2
  cases hl : catalog.lookup c with
  | none => rw [hl] at h2; simp at h2
  | some e =>
    obtain ⟨r, a⟩ := e
    rw [hl] at h2
    simp at h2
    exact ⟨r, a, rfl, h2.1, h2.2⟩

theorem getCategoryImages_of_mem {catalog : Catalog} {c : String} {r a : List Image}
    (hmem : c ∈ availableCategories catalog) (hl : catalog.lookup c = some (r, a)) :
    getCategoryImages catalog c = (r, a) := by
  rw [getCategoryImages, hl]
  simp [hmem]

theorem weightedList_sub {cats : List String} {x : String} (h : x ∈ weightedList cats) :
    x ∈ cats := by
  rw [weightedList] at h
  obtain ⟨c, hc, hx⟩ := List.mem_flatMap.mp h
  rcases List.eq_of_mem_replicate hx with rfl
  exact hc

theorem weightedList_ne_nil {cats : List String} (h : cats ≠ []) :
    weightedList cats ≠ [] := by
  obtain ⟨c, hc⟩ := List.exists_mem_of_ne_nil cats h
  have hmem : c ∈ weightedList cats := by
    rw [weightedList]
    apply List.mem_flatMap.mpr
    refine ⟨c, hc, ?_⟩
    apply List.mem_replicate.mpr
    constructor
    · split <;> decide
    · rfl
  exact List.ne_nil_of_mem hmem

theorem chooseCategory_mem (cats : List String) (r : Nat) (h : cats ≠ []) :
    chooseCategory cats r ∈ cats := by
  rw [chooseCategory]
  split
  · exact weightedList_sub (getD_mod_mem _ r "" (weightedList_ne_nil h))
  · exact getD_mod_mem _ r "" h

theorem realDrawAux_mem {history : List String} {real : List Image} {rand : Nat → Nat}
    (h : real ≠ []) :
    ∀ fuel k img, realDrawAux history real rand fuel k = some img → img ∈ real := by
  intro fuel
  induction fuel with
  | zero => intro k img hh; simp [realDrawAux] at hh
  | succ n ih =>
    intro k img hh
    simp only [realDrawAux] at hh
    split at hh
    · exact ih _ _ hh
    · have := Option.some.inj hh
      rw [← this]
      exact drawAt_mem _ _ h

theorem aiDrawAux_mem {history : List String} {realId : String} {ai : List Image}
    {rand : Nat → Nat} (h : ai ≠ []) :
    ∀ fuel k img, aiDrawAux history realId ai rand fuel k = some img → img ∈ ai := by
  intro fuel
  induction fuel with
  | zero => intro k img hh; simp [aiDrawAux] at hh
  | succ n ih =>
    intro k img hh
    simp only [aiDrawAux] at hh
    split at hh
    · exact ih _ _ hh
    · have := Option.some.inj hh
      rw [← this]
      exact drawAt_mem _ _ h

theorem mkImageId_real_ne_ai (c i c₂ i₂ : String) :
    mkImageId "real" c i ≠ mkImageId "ai" c₂ i₂ := by
  intro h
  have hd : (mkImageId "real" c i).data = (mkImageId "ai" c₂ i₂).data := by rw [h]
  simp only [mkImageId, String.data_append] at hd
  simp at hd

theorem mem_recordPair_of_mem_take {x realId aiId : String} {prev : List String}
    (h : x ∈ prev.take (RECENT_HISTORY_LENGTH - 2)) :
    x ∈ recordPair realId aiId prev := by
  have h50 : RECENT_HISTORY_LENGTH = 48 + 1 + 1 := rfl
  rw [recordPair, h50, List.take_succ_cons, List.take_succ_cons]
  have h48 : RECENT_HISTORY_LENGTH - 2 = 48 := rfl
  rw [h48] at h
  exact List.mem_cons_of_mem _ (List.mem_cons_of_mem _ h)

theorem generateRandomPair_ok_history {catalog : Catalog} {history : List String}
    {rcat : Nat} {rreal rai : Nat → Nat} {fuelA : Nat} {pair : ImagePair}
    {h : List String}
    (hok : generateRandomPair catalog history rcat rreal rai fuelA = .ok pair h) :
    h = recordPair pair.realImage.id pair.aiImage.id history := by
  simp only [generateRandomPair] at hok
  split at hok
  · exact absurd hok (by simp)
  · split at hok
    · exact absurd hok (by simp)
    · split at hok
      · exact absurd hok (by simp)
      · split at hok
        · exact absurd hok (by simp)
        · rw [PairResult.ok.injEq] at hok
          obtain ⟨hp, hh⟩ := hok
          subst hp
          exact hh.symm

/-- C9: after every record step performed by nextPair the SessionHistory
length is at most H = RECENT_HISTORY_LENGTH = 50, for every prior history
contents and every pair of recorded ids. -/
theorem c9_history_length_bounded (realId aiId : String) (prev : List String) :
    (recordPair realId aiId prev).length ≤ RECENT_HISTORY_LENGTH := by
  rw [recordPair]
  rw [List.length_take]
  omega

/-- C4 counterexample: recording a pair over a history that already holds the
real id leaves two occurrences of that id in the window — the record step of
the code does not drop duplicates. -/
theorem c4_record_keeps_duplicates :
    (recordPair "real-people-1" "ai-people-1" ["real-people-1"]).count
      "real-people-1" = 2 := by
  decide

/-- C4 amended: the record step prepends the two recorded ids as the two
newest entries and truncates to H, without removing duplicates; the number of
occurrences of an id can only grow by its occurrences among the two recorded
ids, and an id accepted again as a repeat therefore occurs twice. -/
theorem c4_record_no_dedup (realId aiId x : String) (prev : List String) :
    (recordPair realId aiId prev).take 2 = [realId, aiId] ∧
    (recordPair realId aiId prev).count x ≤
      (if realId = x then 1 else 0) + (if aiId = x then 1 else 0) + prev.count x := by
  constructor
  · rw [recordPair, List.take_take]
    rfl
  · have hsub : (recordPair realId aiId prev).Sublist (realId :: aiId :: prev) :=
      List.take_sublist _ _
    have hle := hsub.count_le x
    rw [List.count_cons, List.count_cons] at hle
    by_cases h1 : realId = x <;> by_cases h2 : aiId = x <;>
      simp [h1, h2] at hle ⊢ <;> omega

/-- C1 is violated by the code: the guard of the ai draw loop binds the
attempts bound only to the equals-real conjunct (conjunction over
disjunction), so a draw whose id is in SessionHistory is redrawn at every
attempt count; with the single ai image already in the history the loop never
exits, whatever the fuel. -/
theorem c1_ai_loop_never_exits (fuel k : Nat) :
    aiDrawAux ["ai-people-1"] "real-people-1" [imgAiPeople1]
      (fun _ => 0) fuel k = none := by
  induction fuel generalizing k with
  | zero => rfl
  | succ n ih =>
    simp only [aiDrawAux]
    simp [aiLoopCond, drawAt, imgAiPeople1]
    exact ih (k + 1)

/-- C5 counterexample: after an explicit game reset followed by the next draw,
an id recorded before the reset is still inside the recentlyUsedIds window —
the reset does not clear SessionHistory and the first draw after reset does
not run against an empty window. -/
theorem c5_reset_keeps_old_history :
    "xhist" ∈ (handleResetGame catPeople 0 (fun _ => 0) (fun _ => 0) 25
      appWithHistory).recentlyUsedIds := by
  decide

/-- C5 amended: an explicit game reset resets the reducer state through
RESET_GAME but leaves the recentlyUsedIds ref untouched, so the first draw
after reset runs against the pre-reset window; any id of the pre-reset window
outside the last two truncated slots survives into the post-draw history. -/
theorem c5_reset_preserves_window (catalog : Catalog) (rcat : Nat)
    (rreal rai : Nat → Nat) (fuelA : Nat) (s : AppState) :
    (handleResetGame catalog rcat rreal rai fuelA s).game =
      { initialGameState with correctStreak := 0 } ∧
    (∀ (pair : ImagePair) (h : List String),
      generateRandomPair catalog s.recentlyUsedIds rcat rreal rai fuelA = .ok pair h →
      ∀ x ∈ s.recentlyUsedIds.take (RECENT_HISTORY_LENGTH - 2),
        x ∈ (handleResetGame catalog rcat rreal rai fuelA s).recentlyUsedIds) := by
  constructor
  · rw [handleResetGame, runGenerateRandomPair]
    cases hgen : generateRandomPair catalog s.recentlyUsedIds rcat rreal rai fuelA <;>
      rfl
  · intro pair h hok x hx
    rw [handleResetGame, runGenerateRandomPair]
    rw [show ({ s with game := gameReducer s.game .resetGame } : AppState).recentlyUsedIds
        = s.recentlyUsedIds from rfl, hok]
    rw [generateRandomPair_ok_history hok]
    exact mem_recordPair_of_mem_take hx

/-- C5 amended witness: at a concrete catalog and a state holding the id
xhist, the reset resets the reducer state and xhist survives the post-reset
draw. -/
theorem c5_reset_preserves_window_witness :
    (handleResetGame catPeople 0 (fun _ => 0) (fun _ => 0) 25 appWithHistory).game =
      { initialGameState with correctStreak := 0 } ∧
    "xhist" ∈ (handleResetGame catPeople 0 (fun _ => 0) (fun _ => 0) 25
      appWithHistory).recentlyUsedIds := by
  refine ⟨(c5_reset_preserves_window catPeople 0 (fun _ => 0) (fun _ => 0) 25
    appWithHistory).1, ?_⟩
  exact (c5_reset_preserves_window catPeople 0 (fun _ => 0) (fun _ => 0) 25
      appWithHistory).2
    ⟨imgRealPeople1, imgAiPeople1, "people"⟩ ["real-people-1", "ai-people-1", "xhist"]
    (by decide) "xhist" (by decide)

theorem nextPairSpec_concrete_unavailable {catalog : Catalog} {filter : String}
    (history : List String) (rcat : Nat) (rreal rai : Nat → Nat)
    (hall : filter ≠ "all") (hmem : filter ∉ availableCategories catalog) :
    nextPairSpec catalog filter history rcat rreal rai = .error .dataUnavailable := by
  rw [nextPairSpec]
  have hb : (filter == "all") = false := by simpa using hall
  simp [hb, hmem]

/-- C3 (spec-modelled): the category-parameterized nextPair verifies that a
concrete requested category is available and fails with DataUnavailable when
it is not; in particular requesting city when the city category has zero ai
images yields DataUnavailable, not a crash or an unbounded retry. -/
theorem c3_unavailable_category_fails :
    (∀ (catalog : Catalog) (filter : String) (history : List String) (rcat : Nat)
      (rreal rai : Nat → Nat), filter ≠ "all" →
      filter ∉ availableCategories catalog →
      nextPairSpec catalog filter history rcat rreal rai = .error .dataUnavailable) ∧
    (∀ (catalog : Catalog) (r : List Image) (history : List String) (rcat : Nat)
      (rreal rai : Nat → Nat), catalog.lookup "city" = some (r, []) →
      nextPairSpec catalog "city" history rcat rreal rai = .error .dataUnavailable) := by
  constructor
  · intro catalog filter history rcat rreal rai hall hmem
    exact nextPairSpec_concrete_unavailable history rcat rreal rai hall hmem
  · intro catalog r history rcat rreal rai hl
    apply nextPairSpec_concrete_unavailable history rcat rreal rai (by decide)
    intro hmem
    obtain ⟨r₂, a₂, hl₂, _, ha₂⟩ := mem_availableCategories hmem
    rw [hl] at hl₂
    have ha0 : a₂ = [] := ((Prod.mk.injEq _ _ _ _).mp (Option.some.inj hl₂)).2.symm
    exact ha₂ ha0

/-- C3 witness: the concrete city catalog with zero ai images. -/
theorem c3_city_witness :
    nextPairSpec catCity "city" [] 0 (fun _ => 0) (fun _ => 0) =
      .error .dataUnavailable :=
  c3_unavailable_category_fails.2 catCity [imgRealCity1] [] 0
    (fun _ => 0) (fun _ => 0) rfl

/-- C10: every category listed in availableCategories has non-empty real and
ai partitions, and consequently, since the chosen category is always drawn
from availableCategories, the data-mismatch branch of generateRandomPair is
unreachable whenever any category is available. -/
theorem c10_available_implies_nonempty :
    (∀ (catalog : Catalog) (c : String), c ∈ availableCategories catalog →
      (getCategoryImages catalog c).1 ≠ [] ∧ (getCategoryImages catalog c).2 ≠ []) ∧
    (∀ (catalog : Catalog) (history : List String) (rcat : Nat)
      (rreal rai : Nat → Nat) (fuelA : Nat), availableCategories catalog ≠ [] →
      generateRandomPair catalog history rcat rreal rai fuelA ≠ .errDataMismatch) := by
  have part1 : ∀ (catalog : Catalog) (c : String), c ∈ availableCategories catalog →
      (getCategoryImages catalog c).1 ≠ [] ∧ (getCategoryImages catalog c).2 ≠ [] := by
    intro catalog c hmem
    obtain ⟨r, a, hl, hr, ha⟩ := mem_availableCategories hmem
    rw [getCategoryImages_of_mem hmem hl]
    exact ⟨hr, ha⟩
  refine ⟨part1, ?_⟩
  intro catalog history rcat rreal rai fuelA hne heq
  have hchosen : chooseCategory (availableCategories catalog) rcat ∈
      availableCategories catalog := chooseCategory_mem _ rcat hne
  obtain ⟨hr, ha⟩ := part1 catalog _ hchosen
  simp only [generateRandomPair] at heq
  rw [if_neg (by simpa using hne)] at heq
  rw [if_neg (by simp [hr, ha, List.length_eq_zero])] at heq
  split at heq
  · exact absurd heq (by simp)
  · split at heq
    · exact absurd heq (by simp)
    · exact absurd heq (by simp)

theorem nodup_map_getElem_ne {α β : Type} (f : α → β) (l : List α)
    (hnd : (l.map f).Nodup) (n m : Nat) (hn : n < l.length) (hm : m < l.length)
    (hnm : n ≠ m) : f l[n] ≠ f l[m] := by
  intro heq
  have hn2 : n < (l.map f).length := by simpa using hn
  have hm2 : m < (l.map f).length := by simpa using hm
  have hgg : (l.map f).get ⟨n, hn2⟩ = (l.map f).get ⟨m, hm2⟩ := by
    rw [List.get_eq_getElem, List.get_eq_getElem]
    rw [List.getElem_map, List.getElem_map]
    exact heq
  have hf := (List.Nodup.get_inj_iff hnd).mp hgg
  exact hnm (by simpa using hf)

theorem advanceIter_steady (rands : Nat → Nat → Nat) (s : MobileState) :
    ∀ t, s.uniqueImagesShownCount + t < UNIQUE_DISPLAY_COUNT_TARGET →
      s.masterMobileIndex + t < s.masterMobileList.length →
      (advanceIter rands t s).masterMobileList = s.masterMobileList ∧
      (advanceIter rands t s).masterMobileIndex = s.masterMobileIndex + t ∧
      (advanceIter rands t s).uniqueImagesShownCount =
        s.uniqueImagesShownCount + t ∧
      (t = 0 ∨ (advanceIter rands t s).currentMobileImage =
        some (s.masterMobileList.getD (s.masterMobileIndex + t) default)) := by
  intro t
  induction t with
  | zero => intro _ _; exact ⟨rfl, rfl, rfl, Or.inl rfl⟩
  | succ n ih =>
    intro hu hc
    have hun : s.uniqueImagesShownCount + n < UNIQUE_DISPLAY_COUNT_TARGET := by omega
    have hcn : s.masterMobileIndex + n < s.masterMobileList.length := by omega
    obtain ⟨hl, hi, hq, _⟩ := ih hun hcn
    simp only [advanceIter, advanceMobileImage]
    rw [hl, hi, hq]
    rw [if_neg (by omega)]
    exact ⟨rfl, rfl, rfl, Or.inr rfl⟩

/-- C2 counterexample: over a two-image pool, the advance that crosses the
reshuffle boundary returns the same image as the advance just before it, so a
window of min(U, poolSize) = 2 consecutive results repeats an id. -/
theorem c2_repeat_across_reshuffle :
    (advanceIter (fun _ _ => 0) 1 mobStart).currentMobileImage = some imgAiPeople1 ∧
    (advanceIter (fun _ _ => 0) 2 mobStart).currentMobileImage = some imgAiPeople1 ∧
    min UNIQUE_DISPLAY_COUNT_TARGET mobStart.masterMobileList.length = 2 := by
  decide

/-- C2 amended: within any run of consecutive advances during which no
reshuffle triggers, no image id occurs twice; the guarantee stops at a
reshuffle boundary, where the next permutation is unconstrained by the
previous window. -/
theorem c2_no_repeat_between_reshuffles (rands : Nat → Nat → Nat)
    (s : MobileState) (k i j : Nat)
    (hnd : (s.masterMobileList.map Image.id).Nodup)
    (hu : s.uniqueImagesShownCount + k < UNIQUE_DISPLAY_COUNT_TARGET)
    (hc : s.masterMobileIndex + k < s.masterMobileList.length)
    (hi1 : 1 ≤ i) (hij : i < j) (hjk : j ≤ k) :
    ∃ a b : Image,
      (advanceIter rands i s).currentMobileImage = some a ∧
      (advanceIter rands j s).currentMobileImage = some b ∧
      a.id ≠ b.id := by
  have hui : s.uniqueImagesShownCount + i < UNIQUE_DISPLAY_COUNT_TARGET := by omega
  have hci : s.masterMobileIndex + i < s.masterMobileList.length := by omega
  have huj : s.uniqueImagesShownCount + j < UNIQUE_DISPLAY_COUNT_TARGET := by omega
  have hcj : s.masterMobileIndex + j < s.masterMobileList.length := by omega
  obtain ⟨_, _, _, hcur_i⟩ := advanceIter_steady rands s i hui hci
  obtain ⟨_, _, _, hcur_j⟩ := advanceIter_steady rands s j huj hcj
  rcases hcur_i with h0 | hcur_i
  · omega
  rcases hcur_j with h0 | hcur_j
  · omega
  refine ⟨_, _, hcur_i, hcur_j, ?_⟩
  rw [getD_of_lt _ _ _ hci, getD_of_lt _ _ _ hcj]
  exact nodup_map_getElem_ne Image.id s.masterMobileList hnd _ _ hci hcj (by omega)

/-- C2 amended witness: a three-image pool advanced twice with no reshuffle. -/
theorem c2_no_repeat_witness :
    ∃ a b : Image,
      (advanceIter (fun _ _ => 0) 1 mobStart3).currentMobileImage = some a ∧
      (advanceIter (fun _ _ => 0) 2 mobStart3).currentMobileImage = some b ∧
      a.id ≠ b.id :=
  c2_no_repeat_between_reshuffles (fun _ _ => 0) mobStart3 2 1 2 (by decide)
    (by decide) (by decide) (by decide) (by decide) (by decide)

/-- C6: advance reshuffles exactly when the incremented cursor reaches the end
of the order or the incremented unique counter reaches U = 50; the reshuffle
installs a permutation of the same pool with cursor 0 and resets the unique
counter to 0 only when the unique-target condition fired, not in the pure
end-of-list case. -/
theorem c6_reshuffle_trigger (rand : Nat → Nat) (s : MobileState)
    (hne : s.masterMobileList ≠ []) :
    (s.uniqueImagesShownCount + 1 ≥ UNIQUE_DISPLAY_COUNT_TARGET ∨
       s.masterMobileIndex + 1 ≥ s.masterMobileList.length →
      (advanceMobileImage rand s).masterMobileList.Perm s.masterMobileList ∧
      (advanceMobileImage rand s).masterMobileIndex = 0 ∧
      (advanceMobileImage rand s).uniqueImagesShownCount =
        (if s.uniqueImagesShownCount + 1 ≥ UNIQUE_DISPLAY_COUNT_TARGET then 0
         else s.uniqueImagesShownCount + 1)) ∧
    (¬(s.uniqueImagesShownCount + 1 ≥ UNIQUE_DISPLAY_COUNT_TARGET ∨
       s.masterMobileIndex + 1 ≥ s.masterMobileList.length) →
      (advanceMobileImage rand s).masterMobileList = s.masterMobileList ∧
      (advanceMobileImage rand s).masterMobileIndex = s.masterMobileIndex + 1 ∧
      (advanceMobileImage rand s).uniqueImagesShownCount =
        s.uniqueImagesShownCount + 1) := by
  constructor
  · intro htrig
    simp only [advanceMobileImage]
    rw [if_pos htrig, if_pos (List.length_pos.mpr hne)]
    exact ⟨shuffleArray_perm rand s.masterMobileList, rfl, rfl⟩
  · intro htrig
    simp only [advanceMobileImage]
    rw [if_neg htrig]
    exact ⟨rfl, rfl, rfl⟩

/-- C6 witness: at a three-image pool in its steady phase, advance increments
the cursor without reshuffling. -/
theorem c6_reshuffle_witness :
    (advanceMobileImage (fun _ => 0) mobStart3).masterMobileList =
      mobStart3.masterMobileList ∧
    (advanceMobileImage (fun _ => 0) mobStart3).masterMobileIndex =
      mobStart3.masterMobileIndex + 1 ∧
    (advanceMobileImage (fun _ => 0) mobStart3).uniqueImagesShownCount =
      mobStart3.uniqueImagesShownCount + 1 :=
  (c6_reshuffle_trigger (fun _ => 0) mobStart3 (by decide)).2 (by decide)

/-- C7 counterexample: with a catalog whose single category is unavailable
(zero ai images), initialization succeeds over the flat pool of all cached
images instead of failing over the empty merge of the available categories:
the pool build honours neither a category filter nor availability. -/
theorem c7_pool_ignores_filter :
    (initMobileGame catCity (fun _ => 0) emptyMobileState).masterMobileList =
      [imgRealCity1] ∧
    (initMobileGame catCity (fun _ => 0) emptyMobileState).mobileError = none ∧
    availableCategories catCity = [] := by
  decide

/-- C7 amended: initialization takes no category argument: its pool is the
deduplicated flat merge of every cached category, available or not; an empty
flat pool sets the error with list empty and no current image, a non-empty one
installs a shuffled permutation of the flat pool with cursor 0, unique counter
0, no error, and the head of the order as current image. -/
theorem c7_init_flat_pool (catalog : Catalog) (rand : Nat → Nat) (s : MobileState) :
    (dedupById (catalog.flatMap fun e => e.2.1 ++ e.2.2) [] = [] →
      (initMobileGame catalog rand s).mobileError =
        some "No images available for the game." ∧
      (initMobileGame catalog rand s).masterMobileList = [] ∧
      (initMobileGame catalog rand s).currentMobileImage = none) ∧
    (dedupById (catalog.flatMap fun e => e.2.1 ++ e.2.2) [] ≠ [] →
      (initMobileGame catalog rand s).masterMobileList.Perm
        (dedupById (catalog.flatMap fun e => e.2.1 ++ e.2.2) []) ∧
      (initMobileGame catalog rand s).masterMobileIndex = 0 ∧
      (initMobileGame catalog rand s).uniqueImagesShownCount = 0 ∧
      (initMobileGame catalog rand s).mobileError = none ∧
      (initMobileGame catalog rand s).currentMobileImage =
        some ((initMobileGame catalog rand s).masterMobileList.getD 0 default)) := by
  constructor
  · intro hpool
    rw [initMobileGame, getAllUniqueImages, hpool]
    exact ⟨rfl, rfl, rfl⟩
  · intro hpool
    have hperm := shuffleArray_perm rand
      (dedupById (catalog.flatMap fun e => e.2.1 ++ e.2.2) [])
    have hlen : (shuffleArray rand
        (dedupById (catalog.flatMap fun e => e.2.1 ++ e.2.2) [])).length ≠ 0 := by
      rw [hperm.length_eq]
      simpa using hpool
    rw [initMobileGame, getAllUniqueImages]
    rw [if_neg (by simpa using hlen)]
    exact ⟨hperm, rfl, rfl, rfl, rfl⟩

/-- C7 amended witness: the concrete people catalog. -/
theorem c7_init_witness :
    (initMobileGame catPeople (fun _ => 1) emptyMobileState).masterMobileList.Perm
      (dedupById (catPeople.flatMap fun e => e.2.1 ++ e.2.2) []) ∧
    (initMobileGame catPeople (fun _ => 1) emptyMobileState).masterMobileIndex = 0 ∧
    (initMobileGame catPeople (fun _ => 1) emptyMobileState).uniqueImagesShownCount
      = 0 ∧
    (initMobileGame catPeople (fun _ => 1) emptyMobileState).mobileError = none ∧
    (initMobileGame catPeople (fun _ => 1) emptyMobileState).currentMobileImage =
      some ((initMobileGame catPeople (fun _ => 1)
        emptyMobileState).masterMobileList.getD 0 default) :=
  (c7_init_flat_pool catPeople (fun _ => 1) emptyMobileState).2 (by decide)

/-- C8: under the id construction of the asset catalog, every pair returned by
generateRandomPair has a real image drawn from the real partition and an ai
image drawn from the ai partition of the chosen category, whose full id
strings are namespaced by type and therefore always differ; stated for
catalogs all of whose ai pools have at least two members. -/
theorem c8_pair_ids_differ (catalog : Catalog) (hwf : CatalogWF catalog)
    (hai2 : ∀ e ∈ catalog, 2 ≤ e.2.2.length)
    (history : List String) (rcat : Nat) (rreal rai : Nat → Nat) (fuelA : Nat)
    (pair : ImagePair) (newH : List String)
    (hok : generateRandomPair catalog history rcat rreal rai fuelA = .ok pair newH) :
    pair.realImage.id ≠ pair.aiImage.id := by
  simp only [generateRandomPair] at hok
  split at hok
  · exact absurd hok (by simp)
  next hcats =>
  split at hok
  · exact absurd hok (by simp)
  next hpools =>
  split at hok
  · exact absurd hok (by simp)
  next rImg hreal =>
  split at hok
  · exact absurd hok (by simp)
  next aImg hai =>
  rw [PairResult.ok.injEq] at hok
  obtain ⟨hp, _⟩ := hok
  subst hp
  have hne : availableCategories catalog ≠ [] := by
    intro h0
    rw [h0] at hcats
    exact hcats rfl
  have hchosen : chooseCategory (availableCategories catalog) rcat ∈
      availableCategories catalog := chooseCategory_mem _ rcat hne
  obtain ⟨r, a, hl, hr, ha⟩ := mem_availableCategories hchosen
  have hgc := getCategoryImages_of_mem hchosen hl
  have hrmem : rImg ∈ r := by
    have hmem := @realDrawAux_mem history
      (getCategoryImages catalog (chooseCategory (availableCategories catalog) rcat)).1
      rreal (by rw [hgc]; exact hr) maxAttempts 0 rImg hreal
    rw [hgc] at hmem
    exact hmem
  have hamem : aImg ∈ a := by
    have hmem := @aiDrawAux_mem history rImg.id
      (getCategoryImages catalog (chooseCategory (availableCategories catalog) rcat)).2
      rai (by rw [hgc]; exact ha) fuelA 0 aImg hai
    rw [hgc] at hmem
    exact hmem
  have hentry := lookup_mem catalog _ _ hl
  obtain ⟨hwr, hwa⟩ := hwf _ hentry
  obtain ⟨idx1, hid1⟩ := hwr rImg hrmem
  obtain ⟨idx2, hid2⟩ := hwa aImg hamem
  show rImg.id ≠ aImg.id
  rw [hid1, hid2]
  exact mkImageId_real_ne_ai _ _ _ _

theorem catTwoAi_wf : CatalogWF catTwoAi := by
  intro e he
  rw [catTwoAi] at he
  rw [List.mem_singleton] at he
  subst he
  constructor
  · intro img himg
    simp only [List.mem_cons, List.not_mem_nil, or_false] at himg
    rcases himg with h | h
    · subst h; exact ⟨"1", by decide⟩
    · subst h; exact ⟨"2", by decide⟩
  · intro img himg
    simp only [List.mem_cons, List.not_mem_nil, or_false] at himg
    rcases himg with h | h
    · subst h; exact ⟨"1", by decide⟩
    · subst h; exact ⟨"2", by decide⟩

/-- C8 witness: the concrete two-ai catalog with the all-zero randomness. -/
theorem c8_pair_witness :
    (ImagePair.mk imgRealPeople1 imgAiPeople1 "people").realImage.id ≠
      (ImagePair.mk imgRealPeople1 imgAiPeople1 "people").aiImage.id :=
  c8_pair_ids_differ catTwoAi catTwoAi_wf (by decide) [] 0 (fun _ => 0)
    (fun _ => 0) 25 (ImagePair.mk imgRealPeople1 imgAiPeople1 "people")
    ["real-people-1", "ai-people-1"] (by decide)

/-- C10 witness: the concrete people catalog. -/
theorem c10_witness :
    ((getCategoryImages catPeople "people").1 ≠ [] ∧
     (getCategoryImages catPeople "people").2 ≠ []) ∧
    generateRandomPair catPeople [] 0 (fun _ => 0) (fun _ => 0) 25 ≠
      .errDataMismatch :=
  ⟨c10_available_implies_nonempty.1 catPeople "people" (by decide),
   c10_available_implies_nonempty.2 catPeople [] 0 (fun _ => 0) (fun _ => 0) 25
     (by decide)⟩

end RealOrAi
